import Mathlib

/-!
Shallow embedding of the perceval backend modules under verification:
`perceval/backends/kitsune.py`, `perceval/backends/mozillaclub.py`,
`perceval/backends/hello.py` and `perceval/backends/sortinghat.py`.

Raw HTTP/file payloads are modelled by their parsed JSON shapes (the code
round-trips them through `json.loads`).  Python exceptions are modelled by
the `PErr` type; a generator that raises after yielding some items is
modelled by a pair of the yielded items and an optional error.  Machine
floats returned by the update-time hooks are modelled by `Rat` at the
specification level.  Date parsing (`dateutil.parser.parse`,
`perceval.utils.str_to_datetime`, both outside the embedded modules) is
threaded through the hook definitions as an explicit argument
`parse : String → Option Rat` mapping a date string to its Unix timestamp,
`none` standing for an unparseable string.
-/

/-- Python exception kinds raised by the embedded code paths. -/
inductive PErr where
  | parseError
  | cacheError
  | keyError
  | indexError
  | typeError
  | httpError (status : Nat)
deriving DecidableEq, Repr

/-- Cache and network effects performed by a `fetch` run, in program order:
`_purge_cache_queue`, `_push_cache_queue`, `_flush_cache_queue`, and one
remote call of the backend's client. -/
inductive CacheOp where
  | purge
  | push
  | flush
  | net
deriving DecidableEq, Repr

/-- Everything observable about one `fetch()` run: the items yielded, the
raw pages durably flushed to the cache (in flush order), the trace of
cache/network effects, and the error terminating the run, if any. -/
structure FetchOut (ι κ : Type) where
  items : List ι
  flushed : List κ
  ops : List CacheOp
  err : Option PErr
deriving DecidableEq, Repr

/-- Value returned by an update-time hook: Python `None` or a float
timestamp. -/
inductive PValue where
  | pnone
  | pfloat (t : Rat)
deriving DecidableEq, Repr

/-- Whether a hook result is a float timestamp. -/
def PValue.isFloat : PValue → Bool
  | .pfloat _ => true
  | .pnone => false

/-- Python-dict style insert-or-replace on an association list: replacing a
present key keeps its position, a new key is appended (dict insertion
order). -/
def upsert {K V : Type} [DecidableEq K] (k : K) (v : V) : List (K × V) → List (K × V)
  | [] => [(k, v)]
  | (k', v') :: rest => if k' = k then (k, v) :: rest else (k', v') :: upsert k v rest

/-- Python-dict lookup on an association list; `none` models a `KeyError`
site. -/
def alookup {K V : Type} [DecidableEq K] (k : K) : List (K × V) → Option V
  | [] => none
  | (k', v) :: rest => if k' = k then some v else alookup k rest

namespace Kitsune

/-- One question object from a Kitsune `results` array, with the fields the
embedded code reads: `id` (used by `metadata_id`) and `updated` (a date
string used by `metadata_updated_on`). -/
structure Question where
  id : Nat
  updated : String
deriving DecidableEq, Repr

/-- Parsed body of one Kitsune questions page.  `count` and `results` model
the presence or absence of those keys in the JSON payload; `next` models
the next-page indicator: the outer `Option` is the presence of the `next`
key (`questions_json['next']` raises `KeyError` when it is absent), the
inner one is its value — `none` for null (a falsy value ends pagination
normally), `some p` carrying the page number parsed from the next URI. -/
structure Page where
  count : Option Nat
  results : Option (List Question)
  next : Option (Option Nat)
deriving DecidableEq, Repr

/-- `KitsuneClient.QUESTIONS_PER_PAGE`. -/
def QUESTIONS_PER_PAGE : Nat := 20

/-- First page number requested by `KitsuneClient.get_questions`:
`page = 1; if offset: page = int(offset/QUESTIONS_PER_PAGE)+1`.
Page numbers are 1-based on the server. -/
def startPage (offset : Nat) : Nat :=
  if offset ≠ 0 then offset / QUESTIONS_PER_PAGE + 1 else 1

/-- Outcome of one HTTP call of the client: the parsed page text, or a
non-success status raised by `raise_for_status`. -/
inductive Response where
  | ok (body : Page)
  | httpError (status : Nat)

/-- The `while more_questions` loop of `KitsuneClient.get_questions`,
parameterized by the remote service (`remote p` is the response to
requesting page `p`).  Each page text is yielded before `json.loads`
reads its `next` key, so a payload without a `next` key is yielded and
then the `KeyError` propagates; a null `next` ends pagination normally.
Returns the pages yielded and the terminating error, if any; `none` means
the recursion fuel ran out (never hit by the theorems below, which always
supply one more fuel unit than pages followed). -/
def pageLoop (remote : Nat → Response) : Nat → Nat → Option (List Page × Option PErr)
  | 0, _ => none
  | fuel + 1, page =>
    match remote page with
    | .httpError s => some ([], some (.httpError s))
    | .ok body =>
      match body.next with
      | none => some ([body], some .keyError)
      | some none => some ([body], none)
      | some (some p2) =>
        match pageLoop remote fuel p2 with
        | none => none
        | some (ps, e) => some (body :: ps, e)

/-- `KitsuneClient.get_questions(offset)`: start at the page containing the
offset, then follow the `next` indicators. -/
def get_questions (remote : Nat → Response) (fuel : Nat) (offset : Nat) :
    Option (List Page × Option PErr) :=
  pageLoop remote fuel (startPage offset)

/-- The `results` list of a page (only read on pages where the key is
present). -/
def resultsOf (p : Page) : List Question := p.results.getD []

/-- Body of `Kitsune.fetch` after the initial purge, processing the pages
delivered by `client.get_questions` in order: push the raw page, read
`count` and `results` (a missing key raises `ParseError` via the bare
`except`), yield every question, flush the queue, continue. -/
def fetchGo : List Page → FetchOut Question Page
  | [] => ⟨[], [], [], none⟩
  | p :: ps =>
    match p.count, p.results with
    | some _, some qs =>
      let o := fetchGo ps
      ⟨qs ++ o.items, p :: o.flushed, .net :: .push :: .flush :: o.ops, o.err⟩
    | _, _ => ⟨[], [], [.net, .push], some .parseError⟩

/-- `Kitsune.fetch`: purge the cache queue, then process the delivered
pages. -/
def fetch (pages : List Page) : FetchOut Question Page :=
  let o := fetchGo pages
  { o with ops := .purge :: o.ops }

/-- Replay loop of `Kitsune.fetch_from_cache`:
`json.loads(items)['results']` for each cached page (a missing `results`
key raises), yielding every question. -/
def replayGo : List Page → List Question × Option PErr
  | [] => ([], none)
  | p :: ps =>
    match p.results with
    | none => ([], some .keyError)
    | some qs =>
      let (is, e) := replayGo ps
      (qs ++ is, e)

/-- `Kitsune.fetch_from_cache`: raises `CacheError` when no cache instance
was provided, otherwise replays the retrieved pages. -/
def fetch_from_cache : Option (List Page) → List Question × Option PErr
  | none => ([], some .cacheError)
  | some pages => replayGo pages

/-- `Kitsune.metadata_id`: `str(item['id'])`. -/
def metadata_id (item : Question) : String := toString item.id

/-- `Kitsune.metadata_updated_on`:
`float(parser.parse(item['updated']).timestamp())`, with date parsing as
the explicit `parse` argument. -/
def metadata_updated_on (parse : String → Option Rat) (item : Question) : Option PValue :=
  (parse item.updated).map PValue.pfloat

end Kitsune

namespace MozillaClub

/-- One spreadsheet cell of the feed: `gs$cell.row`, `gs$cell.col` and
`content.$t`. -/
structure Cell where
  row : Nat
  col : Nat
  content : String
deriving DecidableEq, Repr

/-- Parsed body of the spreadsheet response, `feed.entry`. -/
structure SheetJson where
  entry : List Cell
deriving DecidableEq, Repr

/-- One assembled event: the `event` dict mapping column names to a cell
text or `None`. -/
def Ev : Type := List (String × Option String)

instance : DecidableEq Ev := inferInstanceAs (DecidableEq (List (String × Option String)))

instance : Repr Ev := inferInstanceAs (Repr (List (String × Option String)))

/-- A value yielded by a MozillaClub generator: `fetch` yields assembled
event dicts while `fetch_from_cache` yields the raw cached payloads
unparsed, so the item stream is heterogeneous. -/
inductive ItemRepr where
  | event (e : Ev)
  | raw (s : SheetJson)
deriving DecidableEq, Repr

/-- The `while column_names` header loop of `MozillaClub.fetch`: peek at
`cells[0]`, stop (without popping) at the first cell whose row exceeds 1,
otherwise pop it and record `event_fields[col] = name`.  An empty cell
list raises `IndexError` (`cells[0]`). -/
def readHeader : List Cell → List (Nat × String) → Except PErr (List (Nat × String) × List Cell)
  | [], _ => .error .indexError
  | c :: cs, acc =>
    if 1 < c.row then .ok (acc, c :: cs)
    else readHeader cs (upsert c.col c.content acc)

/-- The per-row initialization of `MozillaClub.fetch`:
`for i in range(1, cell_cols+1): event[event_fields[str(i)]] = None`.
A column index missing from `event_fields` raises `KeyError`. -/
def initEvent (fs : List (Nat × String)) (cellCols : Nat) : Except PErr Ev :=
  (List.range cellCols).foldlM
    (fun ev i =>
      match alookup (i + 1) fs with
      | none => Except.error PErr.keyError
      | some name => Except.ok (upsert name none ev))
    ([] : Ev)

/-- The inner `while True` loop of `MozillaClub.fetch` from its second
iteration on: break without popping when the column number decreases
(a new row started), otherwise pop the cell, set
`event[event_fields[str(col)]]`, and stop when the row is complete
(`col >= cell_cols`).  Returns the assembled event and the number of
cells consumed; an exhausted cell list raises `IndexError` (`cells[0]`),
a column missing from `event_fields` raises `KeyError`. -/
def rowLoop (fs : List (Nat × String)) (cellCols : Nat) :
    List Cell → Nat → Ev → Except PErr (Ev × Nat)
  | [], _, _ => .error .indexError
  | c :: cs, lastCol, ev =>
    if c.col < lastCol then .ok (ev, 0)
    else
      match alookup c.col fs with
      | none => .error .keyError
      | some name =>
        let ev' := upsert name (some c.content) ev
        if cellCols ≤ c.col then .ok (ev', 1)
        else
          match rowLoop fs cellCols cs c.col ev' with
          | .error e => .error e
          | .ok (evDone, n) => .ok (evDone, n + 1)

/-- The wrong-data test of `MozillaClub.fetch`:
`event['Date of Event'] is None or event['Club Name'] is None`, with
Python's short-circuit `or`; a missing key raises `KeyError`. -/
def isWrongEvent (ev : Ev) : Except PErr Bool :=
  match alookup "Date of Event" ev with
  | none => .error .keyError
  | some d =>
    if d = none then .ok true
    else
      match alookup "Club Name" ev with
      | none => .error .keyError
      | some c => .ok (c = none)

/-- First step of a row: with `last_col = 0` the first cell is always
popped and assigned, and the row may already be complete; otherwise the
inner loop continues on the remaining cells.  Returns the assembled event
and the number of cells consumed after the first one. -/
def rowAfterFirst (fs : List (Nat × String)) (cellCols : Nat) (c : Cell) (cs : List Cell)
    (ev1 : Ev) : Except PErr (Ev × Nat) :=
  if cellCols ≤ c.col then .ok (ev1, 0)
  else rowLoop fs cellCols cs c.col ev1

/-- The outer `while cells` event loop of `MozillaClub.fetch`: assemble one
event per row, skip (and count) events whose `Date of Event` or
`Club Name` is `None`, yield the rest in order.  Returns the yielded
events, the wrong-event counter, and the error that aborted the loop, if
any (events yielded before the error are kept).  The `fuel` argument
bounds the number of rows still allowed; every iteration of the Python
loop pops at least one cell, so the entry point `eventsLoop` runs this
with fuel `cells.length`, which never runs out (`eventsLoopF_entry`
below shows the result does not depend on any fuel of at least
`cells.length`, so the zero-fuel non-empty case is unreachable from the
entry point). -/
def eventsLoopF (fs : List (Nat × String)) (cellCols : Nat) :
    Nat → List Cell → List Ev × Nat × Option PErr
  | _, [] => ([], 0, none)
  | 0, _ :: _ => ([], 0, none)
  | fuel + 1, c :: cs =>
    match initEvent fs cellCols with
    | .error e => ([], 0, some e)
    | .ok ev0 =>
      match alookup c.col fs with
      | none => ([], 0, some PErr.keyError)
      | some name =>
        match rowAfterFirst fs cellCols c cs (upsert name (some c.content) ev0) with
        | .error e => ([], 0, some e)
        | .ok (ev, n) =>
          match isWrongEvent ev with
          | .error e => ([], 0, some e)
          | .ok wrong =>
            let (evs, w, er) := eventsLoopF fs cellCols fuel (cs.drop n)
            if wrong then (evs, w + 1, er) else (ev :: evs, w, er)

/-- The event loop of `MozillaClub.fetch` on a cell list. -/
def eventsLoop (fs : List (Nat × String)) (cellCols : Nat) (cells : List Cell) :
    List Ev × Nat × Option PErr :=
  eventsLoopF fs cellCols cells.length cells

/-- `MozillaClub.fetch`: purge the queue, pull the whole spreadsheet in one
raw page, push and flush it, split off the header row, then assemble the
events. -/
def fetch (sheet : SheetJson) : FetchOut ItemRepr SheetJson :=
  let ops := [CacheOp.purge, CacheOp.net, CacheOp.push, CacheOp.flush]
  match readHeader sheet.entry [] with
  | .error e => ⟨[], [sheet], ops, some e⟩
  | .ok (fields, rest) =>
    let cellCols := fields.length
    let (evs, _, er) := eventsLoop fields cellCols rest
    ⟨evs.map ItemRepr.event, [sheet], ops, er⟩

/-- `MozillaClub.fetch_from_cache`: raises `CacheError` when no cache
instance was provided; otherwise yields every cached item directly —
the raw spreadsheet payloads, with no parsing step. -/
def fetch_from_cache : Option (List SheetJson) → List ItemRepr × Option PErr
  | none => ([], some .cacheError)
  | some cacheItems => (cacheItems.map ItemRepr.raw, none)

/-- `MozillaClub.metadata_id`:
`str(item['Date of Event']+"_"+item['Club Name'])`.  On a raw cached
payload (a string, not a dict) the subscript raises `TypeError`; on an
event dict a missing key raises `KeyError` and a `None` value makes the
concatenation raise `TypeError`; all failures are collapsed to `none`. -/
def metadata_id : ItemRepr → Option String
  | .raw _ => none
  | .event e =>
    match alookup "Date of Event" e, alookup "Club Name" e with
    | some (some d), some (some c) => some (d ++ "_" ++ c)
    | _, _ => none

/-- `MozillaClub.metadata_updated_on`:
`float(str_to_datetime(item['Date of Event']).timestamp())`, with date
parsing as the explicit `parse` argument; fails on a raw cached payload,
a missing key, a `None` date or an unparseable date. -/
def metadata_updated_on (parse : String → Option Rat) : ItemRepr → Option PValue
  | .raw _ => none
  | .event e =>
    match alookup "Date of Event" e with
    | some (some d) => (parse d).map PValue.pfloat
    | _ => none

end MozillaClub

namespace Hello

/-- One hello message, as parsed from the generated JSON string
(the raw payload and its parsed form are in bijection). -/
structure Item where
  message : String
deriving DecidableEq, Repr

/-- `HelloClient._max_hellos`. -/
def MAX_HELLOS : Nat := 10

/-- `HelloClient.get_hellos`: the messages generated by
`range(1, _max_hellos)`. -/
def get_hellos (name : String) : List String :=
  (List.range' 1 (MAX_HELLOS - 1)).map
    (fun i => "Hello " ++ name ++ " from Perceval backed " ++ toString i)

/-- `get_update_time` of `hello.py`: returns `None` for every item. -/
def get_update_time (_ : Item) : PValue := PValue.pnone

/-- `Hello.fetch`: purge the queue, then for each generated raw hello push
it, flush, parse it and yield it. -/
def fetch (name : String) : FetchOut Item Item :=
  let raws := get_hellos name
  { items := raws.map Item.mk
    flushed := raws.map Item.mk
    ops := CacheOp.purge :: raws.flatMap (fun _ => [CacheOp.push, CacheOp.flush])
    err := none }

/-- `Hello.fetch_from_cache`: raises `CacheError` when no cache instance
was provided; otherwise parses and yields every cached raw hello. -/
def fetch_from_cache : Option (List Item) → List Item × Option PErr
  | none => ([], some .cacheError)
  | some cached => (cached, none)

end Hello

namespace SortingHat

/-- One uidentity record, with the fields the embedded code reads:
`uuid` (used by `metadata_id`) and `updated` (a date string, overwritten
by the client with the file's top-level `time`). -/
structure Item where
  uuid : String
  updated : String
deriving DecidableEq, Repr

/-- Parsed SortingHat export file: the top-level `time` value and the
`uidentities` dict in insertion order. -/
structure SHFile where
  time : String
  uidentities : List (String × Item)
deriving DecidableEq, Repr

/-- `SortingHatClient.get_uidentities`: for every key of the `uidentities`
dict, set `item['updated'] = data['time']` and yield the item. -/
def get_uidentities (f : SHFile) : List Item :=
  f.uidentities.map (fun kv => { kv.2 with updated := f.time })

/-- `SortingHat.metadata_id`: `str(item['uuid'])`. -/
def metadata_id (item : Item) : String := item.uuid

/-- `SortingHat.metadata_updated_on`:
`str_to_datetime(item['updated']).timestamp()`, with date parsing as the
explicit `parse` argument. -/
def metadata_updated_on (parse : String → Option Rat) (item : Item) : Option PValue :=
  (parse item.updated).map PValue.pfloat

/-- `SortingHat.metadata_category`: always `'uidentity'`. -/
def metadata_category (_ : Item) : String := "uidentity"

end SortingHat

/-- Kind of exception raised while the command's `run` consumes the
fetched sequence: `requests.exceptions.HTTPError`, `IOError`, or any
other exception. -/
inductive ErrKind where
  | httpError
  | ioError
  | otherError
deriving DecidableEq, Repr

/-- One step of consuming the fetched sequence inside `run`: an item is
produced and written, or an exception of some kind is raised. -/
inductive FetchStep (α : Type) where
  | item (a : α)
  | err (k : ErrKind)
deriving DecidableEq, Repr

/-- What a failed `run` re-raises: the transformed `HTTPError`, or the
`RuntimeError` wrapper. -/
inductive Raised where
  | httpError
  | runtimeError
deriving DecidableEq, Repr

/-- Observable outcome of a command's `run`: items written to the output
before termination, whether `cache.recover()` was called, and what was
re-raised, if anything. -/
structure RunOutcome (α : Type) where
  written : List α
  recovered : Bool
  raised : Option Raised
deriving DecidableEq, Repr

/-- `KitsuneCommand.run` consumption loop: write each item; on
`HTTPError` re-raise an `HTTPError` (no recovery), on `IOError` raise
`RuntimeError` (no recovery), on any other exception call
`cache.recover()` when a cache is attached and raise `RuntimeError`. -/
def kitsuneCommandRun {α : Type} (cacheAttached : Bool) : List (FetchStep α) → RunOutcome α
  | [] => ⟨[], false, none⟩
  | .item a :: rest =>
    let o := kitsuneCommandRun cacheAttached rest
    ⟨a :: o.written, o.recovered, o.raised⟩
  | .err .httpError :: _ => ⟨[], false, some .httpError⟩
  | .err .ioError :: _ => ⟨[], false, some .runtimeError⟩
  | .err .otherError :: _ => ⟨[], cacheAttached, some .runtimeError⟩

/-- `MozillaClubCommand.run` consumption loop: identical exception
handling to `KitsuneCommand.run`. -/
def mozillaClubCommandRun {α : Type} (cacheAttached : Bool) : List (FetchStep α) → RunOutcome α
  | [] => ⟨[], false, none⟩
  | .item a :: rest =>
    let o := mozillaClubCommandRun cacheAttached rest
    ⟨a :: o.written, o.recovered, o.raised⟩
  | .err .httpError :: _ => ⟨[], false, some .httpError⟩
  | .err .ioError :: _ => ⟨[], false, some .runtimeError⟩
  | .err .otherError :: _ => ⟨[], cacheAttached, some .runtimeError⟩

/-- `HelloCommand.run` consumption loop: no `HTTPError` clause, so an
`HTTPError` falls into the generic handler; on `IOError` raise
`RuntimeError` (no recovery), on any other exception call
`cache.recover()` when a cache is attached and raise `RuntimeError`. -/
def helloCommandRun {α : Type} (cacheAttached : Bool) : List (FetchStep α) → RunOutcome α
  | [] => ⟨[], false, none⟩
  | .item a :: rest =>
    let o := helloCommandRun cacheAttached rest
    ⟨a :: o.written, o.recovered, o.raised⟩
  | .err .ioError :: _ => ⟨[], false, some .runtimeError⟩
  | .err _ :: _ => ⟨[], cacheAttached, some .runtimeError⟩

/-- Whether `KitsuneCommand.run`/`MozillaClubCommand.run` call
`cache.recover()` for an error of the given kind (cache attached). -/
def kitsuneRecovers : ErrKind → Bool
  | .otherError => true
  | _ => false

/-- Whether `HelloCommand.run` calls `cache.recover()` for an error of the
given kind (cache attached). -/
def helloRecovers : ErrKind → Bool
  | .ioError => false
  | _ => true

/-- What `KitsuneCommand.run`/`MozillaClubCommand.run` re-raise for an
error of the given kind. -/
def kitsuneRaisedKind : ErrKind → Raised
  | .httpError => .httpError
  | _ => .runtimeError

/-- Whether a Kitsune questions page has the structure `Kitsune.fetch`
expects: both the `count` and the `results` keys present. -/
def wellFormedPage (p : Kitsune.Page) : Bool :=
  p.count.isSome && p.results.isSome

/-- A two-column spreadsheet with one complete event row, used as a
concrete run. -/
def demoSheet : MozillaClub.SheetJson :=
  ⟨[⟨1, 1, "Date of Event"⟩, ⟨1, 2, "Club Name"⟩,
    ⟨2, 1, "2016-05-13"⟩, ⟨2, 2, "ClubX"⟩]⟩

/-- The event `MozillaClub.fetch` assembles from `demoSheet`. -/
def demoEvent : MozillaClub.Ev :=
  [("Date of Event", some "2016-05-13"), ("Club Name", some "ClubX")]

/-- A well-formed Kitsune page carrying two questions. -/
def demoGoodPage : Kitsune.Page :=
  ⟨some 2, some [⟨1, "2016-01-01"⟩, ⟨2, "2016-01-02"⟩], some (some 2)⟩

/-- A Kitsune page whose payload is missing the `count` and `results`
keys. -/
def demoBadPage : Kitsune.Page := ⟨none, none, none⟩

/-- A concrete remote Kitsune service: page 1 links to page 2, page 2
carries a null `next` (last page), every other page answers with HTTP
status 500. -/
def demoRemote : Nat → Kitsune.Response :=
  fun p =>
    if p = 1 then .ok ⟨some 3, some [], some (some 2)⟩
    else if p = 2 then .ok ⟨some 3, some [], some none⟩
    else .httpError 500

/-- A Kitsune page whose payload has no `next` key at all. -/
def demoAbsentNextPage : Kitsune.Page := ⟨some 1, some [⟨1, "2016-01-01"⟩], none⟩

/-- A remote whose every response is `demoAbsentNextPage`. -/
def demoRemoteAbsentNext : Nat → Kitsune.Response :=
  fun _ => .ok demoAbsentNextPage

/-- The header fields of the two-column demo spreadsheet. -/
def demoFields : List (Nat × String) := [(1, "Date of Event"), (2, "Club Name")]

/-- A single data cell forming a row with no `Date of Event`. -/
def demoWrongCell : MozillaClub.Cell := ⟨2, 2, "OnlyClubNoDate"⟩

/-- A complete well-formed data row following the wrong row. -/
def demoGoodRow : List MozillaClub.Cell := [⟨3, 1, "2016-05-14"⟩, ⟨3, 2, "ClubY"⟩]

/-- C5: for every connector providing `fetch_from_cache` (Kitsune,
MozillaClub, Hello), calling it when no cache object was configured fails
with a `CacheError`, and this failure occurs before any item is
produced. -/
theorem fetch_from_cache_requires_cache :
    Kitsune.fetch_from_cache none = ([], some PErr.cacheError) ∧
    MozillaClub.fetch_from_cache none = ([], some PErr.cacheError) ∧
    Hello.fetch_from_cache none = ([], some PErr.cacheError) :=
  ⟨rfl, rfl, rfl⟩

/-- C8: every `fetch()` implementation that uses the cache queue (Kitsune,
MozillaClub, Hello) purges any stale cache-queue state at the start of the
call, before pushing any raw page into the queue or contacting the
source: the purge is the first cache/network effect of the run. -/
theorem fetch_purges_cache_queue_first :
    ∀ (pages : List Kitsune.Page) (sheet : MozillaClub.SheetJson) (name : String),
      (Kitsune.fetch pages).ops.head? = some CacheOp.purge ∧
      (MozillaClub.fetch sheet).ops.head? = some CacheOp.purge ∧
      (Hello.fetch name).ops.head? = some CacheOp.purge := by
  intro pages sheet name
  refine ⟨rfl, ?_, rfl⟩
  rcases h : MozillaClub.readHeader sheet.entry [] with e | fr
  · simp [MozillaClub.fetch, h]
  · simp [MozillaClub.fetch, h]

/-- C1 (failing run): on the concrete spreadsheet `demoSheet`, a completed
`MozillaClub.fetch` run yields the parsed event `demoEvent` and flushes
the raw payload to the cache, but the subsequent
`MozillaClub.fetch_from_cache` yields the raw cached payload itself, not
the event: the replayed item stream differs from the original one in
content, and uuid extraction (`metadata_id`) fails on the replayed item
while it succeeds on the fetched one. -/
theorem mozillaclub_replay_diverges_from_fetch :
    (MozillaClub.fetch demoSheet).items = [MozillaClub.ItemRepr.event demoEvent] ∧
    (MozillaClub.fetch demoSheet).err = none ∧
    (MozillaClub.fetch demoSheet).flushed = [demoSheet] ∧
    MozillaClub.fetch_from_cache (some [demoSheet]) =
      ([MozillaClub.ItemRepr.raw demoSheet], none) ∧
    MozillaClub.ItemRepr.raw demoSheet ≠ MozillaClub.ItemRepr.event demoEvent ∧
    MozillaClub.metadata_id (MozillaClub.ItemRepr.event demoEvent) =
      some "2016-05-13_ClubX" ∧
    MozillaClub.metadata_id (MozillaClub.ItemRepr.raw demoSheet) = none := by
  decide

/-- C2 (counterexample): decreasing the offset by 19 < `QUESTIONS_PER_PAGE`
changes which page `KitsuneClient.get_questions` first pulls: offset 20
starts at server page 2 while offset 1 starts at server page 1. -/
theorem kitsune_offset_small_decrease_changes_page :
    19 < Kitsune.QUESTIONS_PER_PAGE ∧
    Kitsune.startPage (20 - 19) ≠ Kitsune.startPage 20 := by
  decide

/-- C2 (amended): for every offset, `KitsuneClient.get_questions` begins
pulling at server page `floor(offset / QUESTIONS_PER_PAGE) + 1` (1-based),
that is, the page with 0-based index `floor(offset / QUESTIONS_PER_PAGE)`;
only page-level positioning is guaranteed; and decreasing the offset
without leaving its page block — by at most `offset % QUESTIONS_PER_PAGE`
— does not change which page is first pulled (a decrease smaller than
`QUESTIONS_PER_PAGE` that crosses a page boundary does change it). -/
theorem kitsune_offset_page_alignment :
    ∀ offset : Nat,
      Kitsune.startPage offset = offset / Kitsune.QUESTIONS_PER_PAGE + 1 ∧
      (∀ (remote : Nat → Kitsune.Response) (fuel : Nat),
        Kitsune.get_questions remote fuel offset =
          Kitsune.pageLoop remote fuel (offset / Kitsune.QUESTIONS_PER_PAGE + 1)) ∧
      ∀ d : Nat, d ≤ offset % Kitsune.QUESTIONS_PER_PAGE →
        Kitsune.startPage (offset - d) = Kitsune.startPage offset := by
  have key : ∀ o : Nat, Kitsune.startPage o = o / Kitsune.QUESTIONS_PER_PAGE + 1 := by
    intro o
    by_cases h : o = 0
    · subst h; decide
    · simp [Kitsune.startPage, h]
  intro offset
  refine ⟨key offset, ?_, ?_⟩
  · intro remote fuel
    rw [Kitsune.get_questions, key offset]
  · intro d hd
    rw [key, key]
    have h20 : Kitsune.QUESTIONS_PER_PAGE = 20 := rfl
    rw [h20] at hd ⊢
    omega

/-- C2 (witness): at offset 25 the first pulled page is server page 2, and
decreasing the offset by 5 ≤ 25 % 20 keeps the first page unchanged. -/
theorem kitsune_offset_page_alignment_witness :
    Kitsune.startPage 25 = 25 / Kitsune.QUESTIONS_PER_PAGE + 1 ∧
    Kitsune.startPage (25 - 5) = Kitsune.startPage 25 :=
  ⟨(kitsune_offset_page_alignment 25).1,
   (kitsune_offset_page_alignment 25).2.2 5 (by decide)⟩

/-- C3 (counterexample): an `HTTPError` raised while `KitsuneCommand.run`
consumes the fetched sequence, with a cache attached, is re-raised
without calling `cache.recover()`. -/
theorem kitsune_run_httperror_no_recover :
    kitsuneCommandRun true [FetchStep.item (0 : Nat), FetchStep.err ErrKind.httpError] =
      ⟨[0], false, some Raised.httpError⟩ := rfl

/-- C3 (amended): on an error raised while consuming the fetched sequence
with a cache attached, `KitsuneCommand.run` and `MozillaClubCommand.run`
call `cache.recover()` only when the error is neither an `HTTPError` nor
an `IOError` (those two are re-raised without recovery, the former as an
`HTTPError`, the latter as a `RuntimeError`); `HelloCommand.run`, which
has no `HTTPError` clause, recovers for every error except an `IOError`.
Items written before the error stay written. -/
theorem command_run_recover_policy :
    ∀ (α : Type) (pre : List α) (k : ErrKind) (rest : List (FetchStep α)),
      kitsuneCommandRun true (pre.map FetchStep.item ++ FetchStep.err k :: rest) =
        ⟨pre, kitsuneRecovers k, some (kitsuneRaisedKind k)⟩ ∧
      mozillaClubCommandRun true (pre.map FetchStep.item ++ FetchStep.err k :: rest) =
        ⟨pre, kitsuneRecovers k, some (kitsuneRaisedKind k)⟩ ∧
      helloCommandRun true (pre.map FetchStep.item ++ FetchStep.err k :: rest) =
        ⟨pre, helloRecovers k, some Raised.runtimeError⟩ := by
  intro α pre k rest
  induction pre with
  | nil => cases k <;> exact ⟨rfl, rfl, rfl⟩
  | cons a as ih =>
    refine ⟨?_, ?_, ?_⟩ <;>
      simp [kitsuneCommandRun, mozillaClubCommandRun, helloCommandRun,
            ih.1, ih.2.1, ih.2.2]

/-- The question lists of a sequence of well-formed pages, flattened. -/
theorem kitsune_fetchGo_parse_abort :
    ∀ (good : List Kitsune.Page) (bad : Kitsune.Page) (rest : List Kitsune.Page),
      (∀ p ∈ good, wellFormedPage p = true) →
      wellFormedPage bad = false →
      Kitsune.fetchGo (good ++ bad :: rest) =
        ⟨good.flatMap Kitsune.resultsOf, good,
         good.flatMap (fun _ => [CacheOp.net, CacheOp.push, CacheOp.flush]) ++
           [CacheOp.net, CacheOp.push],
         some PErr.parseError⟩ := by
  intro good bad rest hgood hbad
  induction good with
  | nil =>
    rcases hc : bad.count with _ | c <;> rcases hr : bad.results with _ | qs <;>
      simp_all [wellFormedPage, Kitsune.fetchGo, Option.isSome]
  | cons p ps ih =>
    have hp := hgood p (by simp)
    simp only [wellFormedPage, Bool.and_eq_true, Option.isSome_iff_exists] at hp
    obtain ⟨⟨c, hc⟩, qs, hr⟩ := hp
    have ihe := ih (fun q hq => hgood q (by simp [hq]))
    simp [Kitsune.fetchGo, hc, hr, ihe, Kitsune.resultsOf]

/-- C4: if a page retrieved by `Kitsune.fetch` is missing the `count` or
`results` key, a `ParseError` propagates to the caller as soon as it
occurs, the remaining pages are not processed (no retry), and the
questions of the pages already processed were yielded and stay yielded;
the malformed page is pushed to the cache queue but never flushed. -/
theorem kitsune_fetch_parse_error_propagates :
    ∀ (good : List Kitsune.Page) (bad : Kitsune.Page) (rest : List Kitsune.Page),
      (∀ p ∈ good, wellFormedPage p = true) →
      wellFormedPage bad = false →
      (Kitsune.fetch (good ++ bad :: rest)).items = good.flatMap Kitsune.resultsOf ∧
      (Kitsune.fetch (good ++ bad :: rest)).err = some PErr.parseError ∧
      (Kitsune.fetch (good ++ bad :: rest)).flushed = good := by
  intro good bad rest hgood hbad
  have h := kitsune_fetchGo_parse_abort good bad rest hgood hbad
  simp [Kitsune.fetch, h]

/-- C4 (witness): a run whose second page is malformed yields exactly the
two questions of the first page, flushes only the first page, and ends
with a `ParseError`. -/
theorem kitsune_fetch_parse_error_propagates_witness :
    (Kitsune.fetch [demoGoodPage, demoBadPage]).items =
      [⟨1, "2016-01-01"⟩, ⟨2, "2016-01-02"⟩] ∧
    (Kitsune.fetch [demoGoodPage, demoBadPage]).err = some PErr.parseError ∧
    (Kitsune.fetch [demoGoodPage, demoBadPage]).flushed = [demoGoodPage] := by
  have h := kitsune_fetch_parse_error_propagates [demoGoodPage] demoBadPage []
    (by decide) (by decide)
  simpa [demoGoodPage, Kitsune.resultsOf] using h

/-- C6 (counterexample): a page whose payload has no `next` key at all
does not end pagination normally: `questions_json['next']` raises
`KeyError` after the page is yielded, so the outcome carries an error —
it is not the clean no-further-page termination the claim describes for
the absent case. -/
theorem kitsune_absent_next_not_normal_end :
    Kitsune.pageLoop demoRemoteAbsentNext 1 1 =
      some ([demoAbsentNextPage], some PErr.keyError) ∧
    Kitsune.pageLoop demoRemoteAbsentNext 1 1 ≠
      some ([demoAbsentNextPage], none) := by
  decide

/-- C6 (amended): `KitsuneClient.get_questions` follows the remote
source's `next` page indicator deterministically: requesting a page whose
response is a transport failure (non-success HTTP status) yields no page
and records the error — in particular the outcome is never a normal
end-of-pagination; a page whose payload has no `next` key is yielded and
then the `KeyError` aborts the sequence as an error, not as a normal end;
a page whose `next` is null is the last one yielded and pagination ends
normally; a page with a `next` page indicated is yielded and pagination
continues at exactly the indicated page. -/
theorem kitsune_pagination_contract :
    ∀ (remote : Nat → Kitsune.Response) (fuel page : Nat),
      (∀ s, remote page = Kitsune.Response.httpError s →
        Kitsune.pageLoop remote (fuel + 1) page = some ([], some (PErr.httpError s)) ∧
        ∀ ps : List Kitsune.Page,
          Kitsune.pageLoop remote (fuel + 1) page ≠ some (ps, none)) ∧
      (∀ body, remote page = Kitsune.Response.ok body → body.next = none →
        Kitsune.pageLoop remote (fuel + 1) page = some ([body], some PErr.keyError) ∧
        ∀ ps : List Kitsune.Page,
          Kitsune.pageLoop remote (fuel + 1) page ≠ some (ps, none)) ∧
      (∀ body, remote page = Kitsune.Response.ok body → body.next = some none →
        Kitsune.pageLoop remote (fuel + 1) page = some ([body], none)) ∧
      (∀ body p2, remote page = Kitsune.Response.ok body → body.next = some (some p2) →
        Kitsune.pageLoop remote (fuel + 1) page =
          (Kitsune.pageLoop remote fuel p2).map (fun r => (body :: r.1, r.2))) := by
  intro remote fuel page
  refine ⟨?_, ?_, ?_, ?_⟩
  · intro s h
    have he : Kitsune.pageLoop remote (fuel + 1) page = some ([], some (PErr.httpError s)) := by
      simp [Kitsune.pageLoop, h]
    refine ⟨he, ?_⟩
    intro ps hcontra
    rw [he] at hcontra
    simp at hcontra
  · intro body h hnext
    have he : Kitsune.pageLoop remote (fuel + 1) page = some ([body], some PErr.keyError) := by
      simp [Kitsune.pageLoop, h, hnext]
    refine ⟨he, ?_⟩
    intro ps hcontra
    rw [he] at hcontra
    simp at hcontra
  · intro body h hnext
    simp [Kitsune.pageLoop, h, hnext]
  · intro body p2 h hnext
    simp only [Kitsune.pageLoop, h, hnext]
    rcases Kitsune.pageLoop remote fuel p2 with _ | ⟨ps, e⟩ <;> simp

/-- C6 (witness): on the concrete remote `demoRemote`, requesting page 3
surfaces the HTTP 500 failure, requesting an absent-`next` page yields it
and then errors, page 2 (null `next`) ends pagination, and page 1 is
yielded followed by the pages reached from page 2. -/
theorem kitsune_pagination_contract_witness :
    Kitsune.pageLoop demoRemote 1 3 = some ([], some (PErr.httpError 500)) ∧
    Kitsune.pageLoop demoRemoteAbsentNext 1 7 =
      some ([demoAbsentNextPage], some PErr.keyError) ∧
    Kitsune.pageLoop demoRemote 1 2 = some ([⟨some 3, some [], some none⟩], none) ∧
    Kitsune.pageLoop demoRemote 2 1 =
      (Kitsune.pageLoop demoRemote 1 2).map
        (fun r => (⟨some 3, some [], some (some 2)⟩ :: r.1, r.2)) :=
  ⟨((kitsune_pagination_contract demoRemote 0 3).1 500 rfl).1,
   ((kitsune_pagination_contract demoRemoteAbsentNext 0 7).2.1
      demoAbsentNextPage rfl rfl).1,
   (kitsune_pagination_contract demoRemote 0 2).2.2.1 ⟨some 3, some [], some none⟩ rfl rfl,
   (kitsune_pagination_contract demoRemote 1 1).2.2.2 ⟨some 3, some [], some (some 2)⟩ 2
      rfl rfl⟩

/-- C7 (counterexample): `get_update_time` of the Hello connector does not
return a floating-point timestamp for the items the connector yields —
it returns `None`. -/
theorem hello_update_time_not_float :
    (Hello.get_update_time ⟨"Hello acs from Perceval backed 1"⟩).isFloat = false := rfl

/-- C7 (amended): the update-time hooks of Kitsune, MozillaClub and
SortingHat return a floating-point Unix timestamp for every item whose
date field is present and parseable; Hello's `get_update_time`, by
contrast, returns `None` (not a float) for every item. -/
theorem update_time_hooks_amended :
    (∀ item : Hello.Item, (Hello.get_update_time item).isFloat = false) ∧
    (∀ (parse : String → Option Rat) (item : Kitsune.Question) (t : Rat),
      parse item.updated = some t →
      Kitsune.metadata_updated_on parse item = some (PValue.pfloat t) ∧
      (PValue.pfloat t).isFloat = true) ∧
    (∀ (parse : String → Option Rat) (item : SortingHat.Item) (t : Rat),
      parse item.updated = some t →
      SortingHat.metadata_updated_on parse item = some (PValue.pfloat t) ∧
      (PValue.pfloat t).isFloat = true) ∧
    (∀ (parse : String → Option Rat) (e : MozillaClub.Ev) (d : String) (t : Rat),
      alookup "Date of Event" e = some (some d) → parse d = some t →
      MozillaClub.metadata_updated_on parse (MozillaClub.ItemRepr.event e) =
        some (PValue.pfloat t) ∧
      (PValue.pfloat t).isFloat = true) := by
  refine ⟨fun _ => rfl, ?_, ?_, ?_⟩
  · intro parse item t h
    exact ⟨by simp [Kitsune.metadata_updated_on, h], rfl⟩
  · intro parse item t h
    exact ⟨by simp [SortingHat.metadata_updated_on, h], rfl⟩
  · intro parse e d t hd hp
    exact ⟨by simp [MozillaClub.metadata_updated_on, hd, hp], rfl⟩

/-- C7 (witness): concrete hook evaluations — Hello's hook yields `None`
while the other three connectors' hooks yield the parsed float. -/
theorem update_time_hooks_amended_witness :
    (Hello.get_update_time ⟨"m"⟩).isFloat = false ∧
    Kitsune.metadata_updated_on (fun _ => some 5) ⟨1, "2016-01-01"⟩ =
      some (PValue.pfloat 5) ∧
    SortingHat.metadata_updated_on (fun _ => some 5) ⟨"u1", "2016-01-01"⟩ =
      some (PValue.pfloat 5) ∧
    MozillaClub.metadata_updated_on (fun _ => some 5)
      (MozillaClub.ItemRepr.event demoEvent) = some (PValue.pfloat 5) :=
  ⟨update_time_hooks_amended.1 ⟨"m"⟩,
   (update_time_hooks_amended.2.1 (fun _ => some 5) ⟨1, "2016-01-01"⟩ 5 rfl).1,
   (update_time_hooks_amended.2.2.1 (fun _ => some 5) ⟨"u1", "2016-01-01"⟩ 5 rfl).1,
   (update_time_hooks_amended.2.2.2 (fun _ => some 5) demoEvent "2016-05-13" 5
      (by decide) rfl).1⟩

/-- C10: every item yielded by `SortingHatClient.get_uidentities` carries
an `updated` field equal to the single top-level `time` value of the
source file, so `SortingHat.metadata_updated_on` returns the same
timestamp for every item of the run. -/
theorem sortinghat_uniform_updated :
    ∀ (f : SortingHat.SHFile) (item : SortingHat.Item),
      item ∈ SortingHat.get_uidentities f →
      item.updated = f.time ∧
      ∀ parse : String → Option Rat,
        SortingHat.metadata_updated_on parse item = (parse f.time).map PValue.pfloat := by
  intro f item hmem
  rw [SortingHat.get_uidentities, List.mem_map] at hmem
  obtain ⟨kv, _, rfl⟩ := hmem
  exact ⟨rfl, fun parse => rfl⟩

/-- C10 (witness): on a concrete file with top-level time `2016-01-01`,
the yielded item's `updated` equals the file time and the hook returns
the parsed file-time timestamp. -/
theorem sortinghat_uniform_updated_witness :
    (⟨"u1", "2016-01-01"⟩ : SortingHat.Item).updated = "2016-01-01" ∧
    SortingHat.metadata_updated_on (fun _ => some 7) ⟨"u1", "2016-01-01"⟩ =
      some (PValue.pfloat 7) := by
  have h := sortinghat_uniform_updated ⟨"2016-01-01", [("k", ⟨"u1", "old"⟩)]⟩
    ⟨"u1", "2016-01-01"⟩ (by decide)
  exact ⟨h.1, by simpa using h.2 (fun _ => some 7)⟩

/-- The inner row loop consumes at most the cells it is given. -/
theorem mozillaclub_rowLoop_consumes_le :
    ∀ (fs : List (Nat × String)) (cc : Nat) (cells : List MozillaClub.Cell)
      (lastCol : Nat) (ev evOut : MozillaClub.Ev) (n : Nat),
      MozillaClub.rowLoop fs cc cells lastCol ev = Except.ok (evOut, n) →
      n ≤ cells.length := by
  intro fs cc cells
  induction cells with
  | nil => intro lastCol ev evOut n h; simp [MozillaClub.rowLoop] at h
  | cons c cs ih =>
    intro lastCol ev evOut n h
    simp only [MozillaClub.rowLoop] at h
    split at h
    · simp only [Except.ok.injEq, Prod.mk.injEq] at h
      omega
    · split at h
      · simp at h
      · split at h
        · simp only [Except.ok.injEq, Prod.mk.injEq] at h
          simp
          omega
        · split at h
          · simp at h
          · rename_i evDone m heq
            simp only [Except.ok.injEq, Prod.mk.injEq] at h
            have := ih _ _ _ _ heq
            simp
            omega

/-- The first-cell step plus inner loop of one row consumes at most the
remaining cells. -/
theorem mozillaclub_rowAfterFirst_consumes_le :
    ∀ (fs : List (Nat × String)) (cc : Nat) (c : MozillaClub.Cell)
      (cs : List MozillaClub.Cell) (ev1 evOut : MozillaClub.Ev) (n : Nat),
      MozillaClub.rowAfterFirst fs cc c cs ev1 = Except.ok (evOut, n) →
      n ≤ cs.length := by
  intro fs cc c cs ev1 evOut n h
  rw [MozillaClub.rowAfterFirst] at h
  split at h
  · simp only [Except.ok.injEq, Prod.mk.injEq] at h
    omega
  · exact mozillaclub_rowLoop_consumes_le fs cc cs c.col ev1 evOut n h

/-- The event loop is insensitive to its row fuel as long as the fuel is
at least the number of cells: every Python loop iteration pops at least
one cell, so `cells.length` rows always suffice. -/
theorem mozillaclub_eventsLoopF_fuel :
    ∀ (fs : List (Nat × String)) (cc fuel fuel' : Nat) (cells : List MozillaClub.Cell),
      cells.length ≤ fuel → cells.length ≤ fuel' →
      MozillaClub.eventsLoopF fs cc fuel cells = MozillaClub.eventsLoopF fs cc fuel' cells := by
  intro fs cc fuel
  induction fuel with
  | zero =>
    intro fuel' cells h h'
    cases cells with
    | nil => cases fuel' <;> rfl
    | cons c cs => simp at h
  | succ f ih =>
    intro fuel' cells h h'
    cases cells with
    | nil => cases fuel' <;> rfl
    | cons c cs =>
      cases fuel' with
      | zero => simp at h'
      | succ f' =>
        simp only [List.length_cons] at h h'
        simp only [MozillaClub.eventsLoopF]
        cases h0 : MozillaClub.initEvent fs cc with
        | error e => rfl
        | ok ev0 =>
          simp only [h0]
          cases h1 : alookup c.col fs with
          | none => rfl
          | some name =>
            simp only [h1]
            cases h2 : MozillaClub.rowAfterFirst fs cc c cs
                (upsert name (some c.content) ev0) with
            | error e => rfl
            | ok evn =>
              obtain ⟨ev, n⟩ := evn
              simp only [h2]
              cases h3 : MozillaClub.isWrongEvent ev with
              | error e => rfl
              | ok wrong =>
                simp only [h3]
                have hn : n ≤ cs.length :=
                  mozillaclub_rowAfterFirst_consumes_le _ _ _ _ _ _ _ h2
                have hrec : MozillaClub.eventsLoopF fs cc f (cs.drop n) =
                    MozillaClub.eventsLoopF fs cc f' (cs.drop n) := by
                  apply ih
                  · simp only [List.length_drop]; omega
                  · simp only [List.length_drop]; omega
                rw [hrec]

/-- C9: a spreadsheet row whose assembled event has `Date of Event` or
`Club Name` equal to `None` is skipped by the event loop of
`MozillaClub.fetch` without raising any error: no item is yielded for it,
the wrong-event counter is incremented by one, and processing continues
with the remaining cells exactly as if the row had not been there. -/
theorem mozillaclub_wrong_event_skipped :
    ∀ (fs : List (Nat × String)) (cellCols : Nat) (c : MozillaClub.Cell)
      (cs : List MozillaClub.Cell) (ev0 : MozillaClub.Ev) (name : String)
      (ev : MozillaClub.Ev) (n : Nat),
      MozillaClub.initEvent fs cellCols = Except.ok ev0 →
      alookup c.col fs = some name →
      MozillaClub.rowAfterFirst fs cellCols c cs (upsert name (some c.content) ev0) =
        Except.ok (ev, n) →
      MozillaClub.isWrongEvent ev = Except.ok true →
      MozillaClub.eventsLoop fs cellCols (c :: cs) =
        ((MozillaClub.eventsLoop fs cellCols (cs.drop n)).1,
         (MozillaClub.eventsLoop fs cellCols (cs.drop n)).2.1 + 1,
         (MozillaClub.eventsLoop fs cellCols (cs.drop n)).2.2) := by
  intro fs cellCols c cs ev0 name ev n h0 h1 h2 h3
  have hn : n ≤ cs.length := mozillaclub_rowAfterFirst_consumes_le _ _ _ _ _ _ _ h2
  rw [MozillaClub.eventsLoop, MozillaClub.eventsLoop]
  simp only [List.length_cons, MozillaClub.eventsLoopF, h0, h1, h2, h3, if_true]
  have hfuel := mozillaclub_eventsLoopF_fuel fs cellCols cs.length (cs.drop n).length
    (cs.drop n) (by simp only [List.length_drop]; omega) (le_refl _)
  rw [hfuel]

/-- C9 (witness): a concrete row carrying only a club name is skipped,
counted as wrong, and the following complete row is still processed. -/
theorem mozillaclub_wrong_event_skipped_witness :
    MozillaClub.eventsLoop demoFields 2 (demoWrongCell :: demoGoodRow) =
      ((MozillaClub.eventsLoop demoFields 2 demoGoodRow).1,
       (MozillaClub.eventsLoop demoFields 2 demoGoodRow).2.1 + 1,
       (MozillaClub.eventsLoop demoFields 2 demoGoodRow).2.2) := by
  have h := mozillaclub_wrong_event_skipped demoFields 2 demoWrongCell demoGoodRow
    [("Date of Event", none), ("Club Name", none)] "Club Name"
    [("Date of Event", none), ("Club Name", some "OnlyClubNoDate")] 0
    rfl rfl rfl rfl
  simpa using h
